import Mathlib

/-!
Verification of the QForceACN library (QForceACN.py): a Robot Framework
extension exposing Salesforce/OmniStudio REST keywords.  The development
shallowly embeds the session state, the URL builders and the record-id
extraction routine `get_record_id`, and settles the specification claims
against them.
-/

set_option maxRecDepth 4096

/-- Character class `[a-zA-Z0-9]` used by every regex in `get_record_id`
(ASCII letters and digits, matching Python `re` on these literal classes). -/
def isAlnumA (c : Char) : Bool := c.isAlpha || c.isDigit

/-- Character class `[a-zA-Z0-9_]` used for the object API name segment in the
Lightning path regex. -/
def isWordChar (c : Char) : Bool := isAlnumA c || c = '_'

/-- True when the list begins with the four characters `0000`. -/
def starts0000 (l : List Char) : Bool :=
  match l with
  | a :: b :: c :: d :: _ => a = '0' && b = '0' && c = '0' && d = '0'
  | _ => false

/-- Python `"0000" in s`: the string contains `0000` as a substring. -/
def has0000 : List Char → Bool
  | [] => false
  | c :: t => starts0000 (c :: t) || has0000 t

/-- True when the list begins with the four characters `.com`. -/
def startsCom (l : List Char) : Bool :=
  match l with
  | a :: b :: c :: d :: _ => a = '.' && b = 'c' && c = 'o' && d = 'm'
  | _ => false

/-- Characters of the input strictly before the first occurrence of `.com`
(the whole input when `.com` does not occur): Python
`loginUrl.split('.com', 1)[0]`. -/
def takeUntilCom : List Char → List Char
  | [] => []
  | c :: t => if startsCom (c :: t) then [] else c :: takeUntilCom t

/-- Login-URL normalisation performed by `authenticate` (QForceACN.py line 62):
`loginUrl.split('.com', 1)[0] + '.com'`. -/
def normalizeLoginUrl (s : String) : String :=
  String.mk (takeUntilCom s.data) ++ ".com"

/-- Index of the first occurrence of `.com` in the list, if any.  This is the
specification-side notion of "the first occurrence of .com" used to state
claim C5. -/
def findCom : List Char → Option Nat
  | [] => none
  | c :: t => if startsCom (c :: t) then some 0 else (findCom t).map (· + 1)

/-- Take exactly `n` characters of class `[a-zA-Z0-9]` from the front,
returning them and the remainder; fails when fewer are available. -/
def takeAlnum : Nat → List Char → Option (List Char × List Char)
  | 0, rest => some ([], rest)
  | _ + 1, [] => none
  | n + 1, c :: t =>
    if isAlnumA c then (takeAlnum n t).map (fun pr => (c :: pr.1, pr.2)) else none

/-- The follow-up `(?:\/|$)` of the Classic regex: end of input or a slash. -/
def atSegEnd (cs : List Char) : Bool :=
  match cs with
  | [] => true
  | '/' :: _ => true
  | _ => false

/-- One alternative `[a-zA-Z0-9]{n}` of the Classic regex followed by
`(?:\/|$)`. -/
def classicAlt (n : Nat) (cs : List Char) : Option (List Char) :=
  match takeAlnum n cs with
  | some pr => if atSegEnd pr.2 then some pr.1 else none
  | none => none

/-- Attempt of the Classic regex
`\/([a-zA-Z0-9]{3}|[a-zA-Z0-9]{15}|[a-zA-Z0-9]{18})(?:\/|$)` at one start
position; alternatives are tried left to right as the backtracking engine
does. -/
def classicAt (cs : List Char) : Option (List Char) :=
  match cs with
  | '/' :: t =>
    match classicAlt 3 t with
    | some r => some r
    | none =>
      match classicAlt 15 t with
      | some r => some r
      | none => classicAlt 18 t
  | _ => none

/-- `re.search` of the Classic regex: leftmost start position wins. -/
def searchClassic : List Char → Option (List Char)
  | [] => none
  | c :: t =>
    match classicAt (c :: t) with
    | some r => some r
    | none => searchClassic t

/-- Maximal run of characters satisfying `p` at the front of the list, with
the remainder. -/
def takeRun (p : Char → Bool) : List Char → List Char × List Char
  | [] => ([], [])
  | c :: t =>
    if p c then
      let pr := takeRun p t
      (c :: pr.1, pr.2)
    else ([], c :: t)

/-- Match a literal character sequence at the front, returning the remainder. -/
def stripLit : List Char → List Char → Option (List Char)
  | [], cs => some cs
  | _ :: _, [] => none
  | l :: ls, c :: t => if c = l then stripLit ls t else none

/-- Attempt of `\/sObject\/([a-zA-Z0-9]+)(?:\/|$)` at one start position: the
greedy `+` takes the maximal alphanumeric run, and backtracking cannot shorten
it (a shorter run is followed by an alphanumeric character, which satisfies
neither `\/` nor `$`), so the run must be nonempty and followed by a slash or
the end of input. -/
def sObjectAt (cs : List Char) : Option (List Char) :=
  match stripLit "/sObject/".data cs with
  | some rest =>
    let pr := takeRun isAlnumA rest
    if pr.1.isEmpty then none
    else if atSegEnd pr.2 then some pr.1 else none
  | none => none

/-- `re.search` of the sObject regex over the URL fragment. -/
def searchSObject : List Char → Option (List Char)
  | [] => none
  | c :: t =>
    match sObjectAt (c :: t) with
    | some r => some r
    | none => searchSObject t

/-- Attempt of `\/lightning\/[r|o]\/[a-zA-Z0-9_]+\/([a-zA-Z0-9]+)` at one
start position.  The character class `[r|o]` matches `r`, `|` or `o` (the
`|` is literal inside a class).  The greedy `[a-zA-Z0-9_]+` cannot backtrack
past a word character, so the object-name run is maximal and must be followed
by a slash; the captured group is the maximal alphanumeric run after it and
must be nonempty. -/
def lightningAt (cs : List Char) : Option (List Char) :=
  match stripLit "/lightning/".data cs with
  | some rest =>
    match rest with
    | m :: '/' :: rest2 =>
      if m = 'r' || m = '|' || m = 'o' then
        let w := takeRun isWordChar rest2
        if w.1.isEmpty then none
        else
          match w.2 with
          | '/' :: rest4 =>
            let r := takeRun isAlnumA rest4
            if r.1.isEmpty then none else some r.1
          | _ => none
      else none
    | _ => none
  | none => none

/-- `re.search` of the Lightning path regex. -/
def searchLightningPath : List Char → Option (List Char)
  | [] => none
  | c :: t =>
    match lightningAt (c :: t) with
    | some r => some r
    | none => searchLightningPath t

/-- The current page URL as decomposed by `urlparse` / `parse_qs`
(QForceACN.py lines 273-275): hostname, path, parsed query parameters (each
key with its ordered list of values, keys in first-occurrence order, no key
with an empty value list, as `parse_qs` produces), and fragment. -/
structure ParsedURL where
  hostname : String
  path : String
  queryParams : List (String × List String)
  fragment : String

/-- Python `str.endswith`: true suffix test. -/
def endswith (s suf : String) : Bool := suf.data.isSuffixOf s.data

/-- Acceptance filter of the Classic branch (QForceACN.py line 282):
`"0000" in res or len(res) == 3`. -/
def classicFilter (r : List Char) : Bool := has0000 r || r.length == 3

/-- The Salesforce Classic / Console branch (QForceACN.py lines 278-283):
when the hostname ends with `.salesforce.com`, search the path with the
Classic regex and return the candidate only when it passes `classicFilter`;
otherwise produce nothing and fall through. -/
def classicBranch (u : ParsedURL) : Option String :=
  if endswith u.hostname ".salesforce.com" then
    match searchClassic u.path.data with
    | some r => if classicFilter r then some (String.mk r) else none
    | none => none
  else none

/-- The Lightning Experience / Salesforce1 branch (QForceACN.py lines
286-296): when the hostname ends with `.lightning.force.com`, search the
fragment with the sObject regex if the path is exactly `/one/one.app`, and
the path with the Lightning regex otherwise. -/
def lightningBranch (u : ParsedURL) : Option String :=
  if endswith u.hostname ".lightning.force.com" then
    if u.path == "/one/one.app" then (searchSObject u.fragment.data).map String.mk
    else (searchLightningPath u.path.data).map String.mk
  else none

/-- The Visualforce rule (QForceACN.py lines 299-301): the first value of the
query parameter named `id`, when that parameter is present with a nonempty
value list. -/
def idParamRule (u : ParsedURL) : Option String :=
  match u.queryParams.find? (fun kv => kv.1 == "id") with
  | some (_, v :: _) => some v
  | _ => none

/-- The anchor `$` of the fallback regex at a position given by the remaining
input: Python's `$` (without `re.MULTILINE`) matches at the end of the string
and also just before a newline that is the last character. -/
def dollarAt (cs : List Char) : Bool := cs.isEmpty || cs == ['\n']

/-- One alternative `[a-zA-Z0-9]{n}` of the anchored fallback regex: exactly
`n` alphanumeric characters from the start, then `$`. -/
def fullShapeAlt (n : Nat) (cs : List Char) : Bool :=
  match takeAlnum n cs with
  | some pr => dollarAt pr.2
  | none => false

/-- The anchored shape regex of the fallback rule, as evaluated by
`re.match(r"^([a-zA-Z0-9]{3}|[a-zA-Z0-9]{15}|[a-zA-Z0-9]{18})$", v)`:
anchored at the start of the value, one of the three length alternatives,
closed by `$` — which, in Python, also accepts a single trailing newline. -/
def fullShape (cs : List Char) : Bool :=
  fullShapeAlt 3 cs || fullShapeAlt 15 cs || fullShapeAlt 18 cs

/-- Test applied to one query parameter by the fallback loop (QForceACN.py
lines 304-306): the first value of the key matches the shape regex and
contains `0000`. -/
def fallbackCheck (kv : String × List String) : Option String :=
  match kv.2 with
  | v :: _ => if fullShape v.data && has0000 v.data then some v else none
  | [] => none

/-- The fallback rule: scan the parsed query parameters in order and return
the first value passing `fallbackCheck`. -/
def fallbackScan (u : ParsedURL) : Option String :=
  u.queryParams.findSome? fallbackCheck

/-- The rules of `get_record_id` tried after the Classic branch, in source
order: Lightning branch, `id` parameter, fallback scan, and finally the
`No Record Id found in current window URL.` exception (modelled as
`Except.error`). -/
def afterClassic (u : ParsedURL) : Except String String :=
  match lightningBranch u with
  | some r => Except.ok r
  | none =>
    match idParamRule u with
    | some v => Except.ok v
    | none =>
      match fallbackScan u with
      | some v => Except.ok v
      | none => Except.error "No Record Id found in current window URL."

/-- `get_record_id` (QForceACN.py lines 253-308) on an already-parsed URL:
the raised `ValueError` is modelled as `Except.error`. -/
def get_record_id (u : ParsedURL) : Except String String :=
  match classicBranch u with
  | some r => Except.ok r
  | none => afterClassic u

/-- The mutable state of a `QForceACN` instance (QForceACN.py lines 16-19):
`access_token` and `loginUrl` start as `None`, the namespace defaults to
`vlocity_cmt`. -/
structure Session where
  access_token : Option String
  loginUrl : Option String
  namespace_ : String
deriving DecidableEq

/-- The session created by `__init__`. -/
def initSession : Session := ⟨none, none, "vlocity_cmt"⟩

/-- Outcome of the OAuth token request issued by `authenticate`: either the
HTTP call cannot complete, or it yields a JSON object (modelled as its
key/value pairs). -/
inductive AuthOutcome where
  | connectionError : AuthOutcome
  | response : List (String × String) → AuthOutcome
deriving DecidableEq

/-- Errors `authenticate` can propagate: `ConnectionError` from the HTTP
call, `KeyError` when the response JSON lacks `access_token`. -/
inductive AuthError where
  | connectionError : AuthError
  | keyError : AuthError
deriving DecidableEq

/-- `authenticate` (QForceACN.py lines 22-69) as a state transformer.  The
credentials only populate the request body and never touch the session, so
they are omitted.  Faithful to the source order: `self.loginUrl` is assigned
(line 62) before the HTTP request is made (line 66), and `self.access_token`
is assigned (line 69) only after the `access_token` field is found in the
response.  Returns the resulting session together with the propagated error,
if any. -/
def authenticate (s : Session) (loginUrl : String) (outcome : AuthOutcome) :
    Session × Option AuthError :=
  let s1 : Session := { s with loginUrl := some (normalizeLoginUrl loginUrl) }
  match outcome with
  | AuthOutcome.connectionError => (s1, some AuthError.connectionError)
  | AuthOutcome.response kvs =>
    match kvs.find? (fun kv => kv.1 == "access_token") with
    | some kv => ({ s1 with access_token := some kv.2 }, none)
    | none => (s1, some AuthError.keyError)

/-- `revoke` (QForceACN.py lines 72-86): resets `access_token` to `None`.  It
takes no outcome argument because the source performs no remote call. -/
def revoke (s : Session) : Session := { s with access_token := none }

/-- One hexadecimal digit, uppercase, as produced by Python percent-encoding. -/
def hexDigit (n : Nat) : Char :=
  if n < 10 then Char.ofNat ('0'.toNat + n) else Char.ofNat ('A'.toNat + (n - 10))

/-- UTF-8 encoding of one character as its byte values, as Python encodes a
`str` before percent-quoting. -/
def utf8Bytes (c : Char) : List Nat :=
  let n := c.toNat
  if n < 0x80 then [n]
  else if n < 0x800 then [0xC0 + n / 64, 0x80 + n % 64]
  else if n < 0x10000 then
    [0xE0 + n / 4096, 0x80 + n / 64 % 64, 0x80 + n % 64]
  else
    [0xF0 + n / 262144, 0x80 + n / 4096 % 64, 0x80 + n / 64 % 64, 0x80 + n % 64]

/-- Encoding of one character by `urllib.parse.quote_plus` with its default
safe set: letters, digits and `_.-~` are kept, a space becomes `+`, and every
other character is percent-encoded bytewise in uppercase hex. -/
def quotePlusChar (c : Char) : List Char :=
  if isAlnumA c || c = '_' || c = '.' || c = '-' || c = '~' then [c]
  else if c = ' ' then ['+']
  else (utf8Bytes c).flatMap (fun b => ['%', hexDigit (b / 16), hexDigit (b % 16)])

/-- `urllib.parse.quote_plus` on a whole string. -/
def quote_plus (s : String) : String := String.mk (s.data.flatMap quotePlusChar)

/-- `urllib.parse.urlencode` on an ordered mapping: `k=v` pairs quoted with
`quote_plus` and joined by `&`. -/
def urlencode (ps : List (String × String)) : String :=
  String.intercalate "&" (ps.map (fun kv => quote_plus kv.1 ++ "=" ++ quote_plus kv.2))

/-- Request URL built by `execute_dataraptor` (QForceACN.py lines 161-166).
The source reads `self.loginUrl` without a guard, so a session that was never
authenticated (login URL `None`) yields no URL (the Python call would fail). -/
def execute_dataraptor_url (s : Session) (bundleName : String)
    (params : List (String × String)) : Option String :=
  match s.loginUrl with
  | some base =>
    some (base ++ "/services/apexrest/" ++ s.namespace_ ++ "/v2/DataRaptor/" ++
      bundleName ++ "?" ++ urlencode params)
  | none => none

/-- A Python `datetime.datetime` value, to the precision `strftime` needs
here. -/
structure PyDateTime where
  year : Nat
  month : Nat
  day : Nat
  hour : Nat
  minute : Nat
  second : Nat
deriving DecidableEq

/-- Two-digit zero-padded decimal, as `%m %d %H %M %S` render. -/
def pad2 (n : Nat) : String := if n < 10 then "0" ++ toString n else toString n

/-- Four-digit zero-padded decimal for `%Y` (datetime years are 1-9999; the
four-digit case is the one exercised here). -/
def pad4 (n : Nat) : String :=
  if n < 10 then "000" ++ toString n
  else if n < 100 then "00" ++ toString n
  else if n < 1000 then "0" ++ toString n
  else toString n

/-- `effectiveDate.strftime("%Y-%m-%d %H:%M:%S")` (QForceACN.py line 205). -/
def formatEffectiveDate (d : PyDateTime) : String :=
  pad4 d.year ++ "-" ++ pad2 d.month ++ "-" ++ pad2 d.day ++ " " ++
    pad2 d.hour ++ ":" ++ pad2 d.minute ++ ":" ++ pad2 d.second

/-- The `effectiveDate` argument of `execute_calculation_procedure`: absent
(`None`), a `datetime.datetime`, or some value of another type (which the
`isinstance` check rejects). -/
inductive EffectiveDateArg where
  | absent : EffectiveDateArg
  | dt : PyDateTime → EffectiveDateArg
  | nonDatetime : String → EffectiveDateArg
deriving DecidableEq

/-- Python dict assignment `params[k] = v`: an existing key keeps its
position and gets the new value, a new key is appended at the end. -/
def setParam (ps : List (String × String)) (k v : String) :
    List (String × String) :=
  if ps.any (fun kv => kv.1 == k) then
    ps.map (fun kv => if kv.1 == k then (kv.1, v) else kv)
  else ps ++ [(k, v)]

/-- Parameter set used by `execute_calculation_procedure` after the
`effectiveDate` check (QForceACN.py lines 204-205): a datetime value is
formatted and stored under the key `effectiveDate`; anything else leaves the
parameters untouched. -/
def calcParams (effectiveDate : EffectiveDateArg)
    (params : List (String × String)) : List (String × String) :=
  match effectiveDate with
  | EffectiveDateArg.dt d => setParam params "effectiveDate" (formatEffectiveDate d)
  | _ => params

/-- Request URL built by `execute_calculation_procedure` (QForceACN.py lines
204-213). -/
def execute_calculation_procedure_url (s : Session) (configName : String)
    (effectiveDate : EffectiveDateArg) (params : List (String × String)) :
    Option String :=
  match s.loginUrl with
  | some base =>
    some (base ++ "/services/apexrest/" ++ s.namespace_ ++ "/v1/calculate/" ++
      configName ++ "?" ++ urlencode (calcParams effectiveDate params))
  | none => none

/-! Helper lemmas shared by the claim theorems. -/

/-- A hostname ending in `.lightning.force.com` cannot also end in
`.salesforce.com`: two suffixes of one list are comparable, and neither of
these two strings is a suffix of the other. -/
theorem salesforce_lightning_disjoint (s : String)
    (h : endswith s ".lightning.force.com" = true) :
    endswith s ".salesforce.com" = false := by
  cases h2 : endswith s ".salesforce.com" with
  | false => rfl
  | true =>
    exfalso
    unfold endswith at h h2
    rw [List.isSuffixOf_iff_suffix] at h h2
    rcases List.suffix_or_suffix_of_suffix h h2 with h3 | h3 <;>
      exact absurd h3 (by decide)

/-- A list starting with `0000` has at least four elements. -/
theorem starts0000_length (l : List Char) (h : starts0000 l = true) :
    4 ≤ l.length := by
  unfold starts0000 at h
  split at h
  · simp [List.length_cons]
  · exact absurd h (by simp)

/-- A list containing `0000` as a substring has at least four elements. -/
theorem has0000_length_ge (l : List Char) (h : has0000 l = true) :
    4 ≤ l.length := by
  induction l with
  | nil => simp [has0000] at h
  | cons c t ih =>
    rw [has0000, Bool.or_eq_true] at h
    rcases h with h | h
    · exact starts0000_length _ h
    · have := ih h
      simp only [List.length_cons]
      omega

/-- A list starting with `.com` has `['.', 'c', 'o', 'm']` as a prefix. -/
theorem startsCom_shape (l : List Char) (h : startsCom l = true) :
    ∃ t, l = '.' :: 'c' :: 'o' :: 'm' :: t := by
  unfold startsCom at h
  split at h
  · rename_i a b c d t
    simp only [Bool.and_eq_true, decide_eq_true_eq] at h
    obtain ⟨⟨⟨h1, h2⟩, h3⟩, h4⟩ := h
    subst h1; subst h2; subst h3; subst h4
    exact ⟨t, rfl⟩
  · exact absurd h (by simp)

/-- The characters kept by `takeUntilCom`, with `.com` re-appended, are the
prefix of the input of length `i + 4` when the first occurrence of `.com`
starts at index `i`. -/
theorem takeUntilCom_append_com (l : List Char) :
    ∀ i, findCom l = some i →
      takeUntilCom l ++ ['.', 'c', 'o', 'm'] = l.take (i + 4) := by
  induction l with
  | nil => intro i h; simp [findCom] at h
  | cons c t ih =>
    intro i h
    cases hsc : startsCom (c :: t) with
    | true =>
      simp only [findCom, hsc, if_true] at h
      obtain rfl : (0 : Nat) = i := Option.some.inj h
      obtain ⟨rest, hrest⟩ := startsCom_shape _ hsc
      simp only [takeUntilCom, hsc, if_true, List.nil_append]
      rw [hrest]
      rfl
    | false =>
      cases hft : findCom t with
      | none => simp [findCom, hsc, hft] at h
      | some j =>
        simp [findCom, hsc, hft] at h
        subst h
        simp only [takeUntilCom, hsc, Bool.false_eq_true, if_false, List.cons_append]
        have h45 : j + 1 + 4 = (j + 4) + 1 := by omega
        rw [h45, List.take_succ_cons, ih j hft]

/-- A parameter stored by `setParam` is present afterwards under its key with
its value. -/
theorem setParam_contains (ps : List (String × String)) (k v : String) :
    (setParam ps k v).any (fun kv => kv.1 == k && kv.2 == v) = true := by
  rw [List.any_eq_true]
  unfold setParam
  split
  · rename_i h
    rw [List.any_eq_true] at h
    obtain ⟨kv, hmem, hk⟩ := h
    refine ⟨(kv.1, v), List.mem_map.mpr ⟨kv, hmem, by simp [hk]⟩, by simp [hk]⟩
  · exact ⟨(k, v), by simp, by simp⟩

/-- A successful `takeAlnum n` splits its input into the `n` characters taken
and the remainder. -/
theorem takeAlnum_decomp :
    ∀ (n : Nat) (cs : List Char) (pr : List Char × List Char),
      takeAlnum n cs = some pr → cs = pr.1 ++ pr.2 ∧ pr.1.length = n := by
  intro n
  induction n with
  | zero =>
    intro cs pr h
    obtain rfl := (Option.some.inj h).symm
    exact ⟨rfl, rfl⟩
  | succ n ih =>
    intro cs pr h
    cases cs with
    | nil => exact Option.noConfusion h
    | cons c t =>
      cases hA : isAlnumA c with
      | false => simp [takeAlnum, hA] at h
      | true =>
        have hmap : takeAlnum (n + 1) (c :: t) =
            (takeAlnum n t).map (fun pr => (c :: pr.1, pr.2)) := by
          simp [takeAlnum, hA]
        rw [hmap] at h
        cases hT : takeAlnum n t with
        | none => rw [hT] at h; exact Option.noConfusion h
        | some pr' =>
          rw [hT, Option.map_some'] at h
          obtain rfl := Option.some.inj h
          obtain ⟨hd, hl⟩ := ih t pr' hT
          exact ⟨by rw [List.cons_append, ← hd], by simp [hl]⟩

/-- A value accepted by one anchored alternative is exactly `n` alphanumeric
characters, possibly followed by one trailing newline accepted by `$`. -/
theorem fullShapeAlt_shape (n : Nat) (cs : List Char)
    (h : fullShapeAlt n cs = true) :
    ∃ l, l.length = n ∧ (cs = l ∨ cs = l ++ ['\n']) := by
  unfold fullShapeAlt at h
  cases hT : takeAlnum n cs with
  | none => rw [hT] at h; exact Bool.noConfusion h
  | some pr =>
    rw [hT] at h
    obtain ⟨hd, hl⟩ := takeAlnum_decomp n cs pr hT
    refine ⟨pr.1, hl, ?_⟩
    have h' : (pr.2.isEmpty || pr.2 == ['\n']) = true := h
    rw [Bool.or_eq_true] at h'
    rcases h' with h2 | h2
    · left
      rw [hd, List.isEmpty_iff.mp h2, List.append_nil]
    · right
      rw [hd, eq_of_beq h2]

/-- Three alphanumeric characters followed by a newline cannot contain the
substring `0000`. -/
theorem has0000_three_newline (a b c : Char) :
    has0000 [a, b, c, '\n'] = false := by
  simp [has0000, starts0000]

/-- A value produced by `fallbackCheck` passed both the anchored shape regex
and the `0000` substring test. -/
theorem fallbackCheck_shape (kv : String × List String) (r : String)
    (h : fallbackCheck kv = some r) :
    fullShape r.data = true ∧ has0000 r.data = true := by
  obtain ⟨k, vs⟩ := kv
  cases vs with
  | nil => simp [fallbackCheck] at h
  | cons v t =>
    simp only [fallbackCheck] at h
    cases hc : (fullShape v.data && has0000 v.data) with
    | false => rw [hc] at h; simp at h
    | true =>
      rw [hc] at h
      simp only [if_true] at h
      obtain rfl : v = r := Option.some.inj h
      exact And.intro (Bool.and_eq_true _ _ |>.mp hc).1 (Bool.and_eq_true _ _ |>.mp hc).2

/-- Any value found by the fallback scan passed both the anchored shape regex
and the `0000` substring test. -/
theorem findSome?_fallback (l : List (String × List String)) :
    ∀ r, l.findSome? fallbackCheck = some r →
      fullShape r.data = true ∧ has0000 r.data = true := by
  induction l with
  | nil => intro r h; simp [List.findSome?] at h
  | cons kv t ih =>
    intro r h
    rw [List.findSome?_cons] at h
    cases hf : fallbackCheck kv with
    | some x =>
      rw [hf] at h
      obtain rfl := Option.some.inj h
      exact fallbackCheck_shape kv _ hf
    | none =>
      rw [hf] at h
      exact ih r h

/-! Claim C1. -/

/-- Concrete URL for claim C1: Classic hostname, a path with no 3/15/18
alphanumeric segment, and an `id` query parameter. -/
def c1URL : ParsedURL := ⟨"na1.salesforce.com", "/home/home.jsp", [("id", ["xyz"])], ""⟩

/-- C1 (counterexample): the claim says that for a URL whose hostname ends
with `.salesforce.com` but whose path yields no accepted segment, the `id`
query parameter is not consulted and only the `0000`-filtered fallback may
return a value.  On `c1URL` the hostname ends with `.salesforce.com`, the
Classic branch produces nothing, the `0000`-filtered fallback also produces
nothing (`xyz` is 3 characters and cannot contain `0000`), and yet
`get_record_id` returns `xyz` — the first value of the `id` parameter.  The
branches in the source are independent `if` statements, not an
`if`/`elif` chain, so control falls through to the `id` rule. -/
theorem c1_counterexample :
    endswith c1URL.hostname ".salesforce.com" = true ∧
    classicBranch c1URL = none ∧
    fallbackScan c1URL = none ∧
    get_record_id c1URL = Except.ok "xyz" :=
  ⟨rfl, rfl, rfl, rfl⟩

/-- C1 (amended): `get_record_id` returns the first value of the query
parameter named `id` whenever the Classic and Lightning branches produce no
accepted value — regardless of the hostname; in particular the `id`
parameter is consulted (before the `0000`-filtered fallback) even when the
hostname ends with `.salesforce.com` and the path yielded no accepted
segment. -/
theorem c1_id_rule_after_fallthrough (u : ParsedURL) (v : String)
    (h1 : classicBranch u = none) (h2 : lightningBranch u = none)
    (h3 : idParamRule u = some v) :
    get_record_id u = Except.ok v := by
  simp [get_record_id, afterClassic, h1, h2, h3]

/-- C1 (witness): the amended claim applied to `c1URL`. -/
theorem c1_witness : get_record_id c1URL = Except.ok "xyz" :=
  c1_id_rule_after_fallthrough c1URL "xyz" rfl rfl rfl

/-! Claim C2. -/

/-- Concrete pre-call session for claim C2: an earlier authenticate stored a
token and a login URL. -/
def c2Session : Session := ⟨some "oldtoken", some "https://old.example.com", "vlocity_cmt"⟩

/-- C2 (counterexample): the claim says a failing `authenticate` leaves both
the stored access token and the stored login URL unmodified.  Calling
`authenticate` on `c2Session` with a new login URL and a connection error
keeps the token but overwrites the stored login URL with the normalized new
value: the source assigns `self.loginUrl` (line 62) before issuing the HTTP
request (line 66). -/
theorem c2_counterexample :
    c2Session.loginUrl = some "https://old.example.com" ∧
    (authenticate c2Session "https://new.example.com/x" AuthOutcome.connectionError).2 =
      some AuthError.connectionError ∧
    (authenticate c2Session "https://new.example.com/x" AuthOutcome.connectionError).1.loginUrl =
      some "https://new.example.com" ∧
    (authenticate c2Session "https://new.example.com/x" AuthOutcome.connectionError).1.access_token =
      c2Session.access_token :=
  ⟨rfl, rfl, rfl, rfl⟩

/-- C2 (amended): if `authenticate` fails — connection error or missing
`access_token` field — the stored access token and the namespace are left
exactly as before the call, but the stored login URL has already been
overwritten with the normalized value of the supplied `loginUrl` (so it is
unchanged only when that normalization coincides with the previous value). -/
theorem c2_failed_authenticate_state (s : Session) (url : String)
    (outcome : AuthOutcome) (e : AuthError)
    (h : (authenticate s url outcome).2 = some e) :
    (authenticate s url outcome).1.access_token = s.access_token ∧
    (authenticate s url outcome).1.loginUrl = some (normalizeLoginUrl url) ∧
    (authenticate s url outcome).1.namespace_ = s.namespace_ := by
  cases outcome with
  | connectionError => exact ⟨rfl, rfl, rfl⟩
  | response kvs =>
    cases hf : kvs.find? (fun kv => kv.1 == "access_token") with
    | some kv => simp [authenticate, hf] at h
    | none => simp [authenticate, hf]

/-- C2 (witness): the amended claim applied to `c2Session` with a connection
error. -/
theorem c2_witness :
    (authenticate c2Session "https://new.example.com/x" AuthOutcome.connectionError).1.access_token =
      c2Session.access_token ∧
    (authenticate c2Session "https://new.example.com/x" AuthOutcome.connectionError).1.loginUrl =
      some (normalizeLoginUrl "https://new.example.com/x") ∧
    (authenticate c2Session "https://new.example.com/x" AuthOutcome.connectionError).1.namespace_ =
      c2Session.namespace_ :=
  c2_failed_authenticate_state c2Session "https://new.example.com/x"
    AuthOutcome.connectionError AuthError.connectionError rfl

/-! Claim C3. -/

/-- C3: in the Classic branch, a candidate path segment of 3, 15 or 18
alphanumeric characters is returned only when it contains `0000` or has
length exactly 3; a candidate passing neither test is rejected, the Classic
branch yields nothing, and extraction falls through to the later rules. -/
theorem c3_classic_filter (u : ParsedURL)
    (hhost : endswith u.hostname ".salesforce.com" = true) :
    (∀ r, classicBranch u = some r → has0000 r.data = true ∨ r.length = 3) ∧
    (∀ c, searchClassic u.path.data = some c → has0000 c = false → c.length ≠ 3 →
      classicBranch u = none ∧ get_record_id u = afterClassic u) := by
  constructor
  · intro r hr
    cases hs : searchClassic u.path.data with
    | none =>
      have hn : classicBranch u = none := by simp [classicBranch, hhost, hs]
      rw [hn] at hr
      exact Option.noConfusion hr
    | some c =>
      cases hc : classicFilter c with
      | false =>
        have hn : classicBranch u = none := by simp [classicBranch, hhost, hs, hc]
        rw [hn] at hr
        exact Option.noConfusion hr
      | true =>
        have hcb : classicBranch u = some (String.mk c) := by
          simp [classicBranch, hhost, hs, hc]
        rw [hcb] at hr
        obtain rfl := Option.some.inj hr
        have hc' := hc
        simp only [classicFilter, Bool.or_eq_true, beq_iff_eq] at hc'
        exact hc'
  · intro c hs h0 h3
    have hfilter : classicFilter c = false := by
      cases hlen : c.length == 3 with
      | true => exact absurd (beq_iff_eq.mp hlen) h3
      | false => simp [classicFilter, h0, hlen]
    have hcb : classicBranch u = none := by
      simp [classicBranch, hhost, hs, hfilter]
    exact ⟨hcb, by simp [get_record_id, hcb]⟩

/-- Concrete URL for the C3 witness: Classic hostname and a 15-character
alphanumeric path segment without `0000`. -/
def c3URL : ParsedURL := ⟨"na1.salesforce.com", "/console/ABCDEFGHIJKLMNO", [], ""⟩

/-- C3 (witness): on `c3URL` the 15-character candidate `ABCDEFGHIJKLMNO`
lacks `0000`, so the Classic branch rejects it and extraction falls through. -/
theorem c3_witness :
    classicBranch c3URL = none ∧ get_record_id c3URL = afterClassic c3URL :=
  (c3_classic_filter c3URL rfl).2 "ABCDEFGHIJKLMNO".data rfl rfl (by decide)

/-! Claim C4. -/

/-- Concrete URL for claim C4: the Lightning example from the specification. -/
def c4URL : ParsedURL :=
  ⟨"myorg.lightning.force.com", "/lightning/r/Account/001xx000003DGb2AAE", [], ""⟩

/-- C4: in the Lightning branch (hostname ending with `.lightning.force.com`,
which is disjoint from the Classic host condition), a path of exactly
`/one/one.app` has the id extracted from the `/sObject/{id}` pattern of the
fragment, any other path from the `/lightning/{r|o}/{objectApiName}/{id}`
pattern of the path; on the path `/lightning/r/Account/001xx000003DGb2AAE`
the extractor returns `001xx000003DGb2AAE`. -/
theorem c4_lightning_branch (u : ParsedURL) (r : List Char)
    (hhost : endswith u.hostname ".lightning.force.com" = true) :
    (u.path = "/one/one.app" → searchSObject u.fragment.data = some r →
      get_record_id u = Except.ok (String.mk r)) ∧
    (u.path ≠ "/one/one.app" → searchLightningPath u.path.data = some r →
      get_record_id u = Except.ok (String.mk r)) ∧
    get_record_id c4URL = Except.ok "001xx000003DGb2AAE" := by
  have hcb : classicBranch u = none := by
    simp [classicBranch, salesforce_lightning_disjoint u.hostname hhost]
  refine ⟨?_, ?_, rfl⟩
  · intro hp hs
    have hlb : lightningBranch u = some (String.mk r) := by
      simp [lightningBranch, hhost, hp, hs]
    simp [get_record_id, afterClassic, hcb, hlb]
  · intro hp hs
    have hne : (u.path == "/one/one.app") = false := by
      cases hq : u.path == "/one/one.app" with
      | true => exact absurd (eq_of_beq hq) hp
      | false => rfl
    have hlb : lightningBranch u = some (String.mk r) := by
      simp [lightningBranch, hhost, hne, hs]
    simp [get_record_id, afterClassic, hcb, hlb]

/-- Concrete URL for the C4 witness: a `/one/one.app` path with the id in the
fragment. -/
def c4oneURL : ParsedURL :=
  ⟨"org.lightning.force.com", "/one/one.app", [], "/sObject/001A000001ZpDuJ/view"⟩

/-- C4 (witness): the `/one/one.app` case applied to `c4oneURL`. -/
theorem c4_witness :
    get_record_id c4oneURL = Except.ok (String.mk "001A000001ZpDuJ".data) :=
  (c4_lightning_branch c4oneURL "001A000001ZpDuJ".data rfl).1 rfl rfl

/-! Claim C5. -/

/-- C5: `authenticate` stores, as base login URL, exactly the prefix of the
supplied `loginUrl` up to and including the first occurrence of `.com`
(`findCom` gives the index where that first occurrence starts); in
particular `https://na1.salesforce.com/ignored/path` is stored as
`https://na1.salesforce.com`. -/
theorem c5_normalize_login_url (s : String) (i : Nat)
    (h : findCom s.data = some i) :
    (normalizeLoginUrl s).data = s.data.take (i + 4) ∧
    normalizeLoginUrl "https://na1.salesforce.com/ignored/path" =
      "https://na1.salesforce.com" := by
  constructor
  · have hdata : (normalizeLoginUrl s).data =
        takeUntilCom s.data ++ ['.', 'c', 'o', 'm'] := rfl
    rw [hdata, takeUntilCom_append_com s.data i h]
  · rfl

/-- C5 (witness): on `https://na1.salesforce.com/ignored/path` the first
`.com` starts at index 22, and the stored URL is the 26-character prefix. -/
theorem c5_witness :
    (normalizeLoginUrl "https://na1.salesforce.com/ignored/path").data =
      "https://na1.salesforce.com/ignored/path".data.take 26 :=
  (c5_normalize_login_url "https://na1.salesforce.com/ignored/path" 22 (by decide)).1

/-! Claim C6. -/

/-- Concrete authenticated session for claim C6. -/
def c6Session : Session := ⟨some "tok", some "https://na1.salesforce.com", "vlocity_cmt"⟩

/-- C6: `execute_dataraptor` builds exactly
`{base}/services/apexrest/{namespace}/v2/DataRaptor/{bundleName}?urlencode(params)`;
with bundle `LookupAccounts` and parameters `key1=value1` the URL is
`{base}/services/apexrest/{namespace}/v2/DataRaptor/LookupAccounts?key1=value1`. -/
theorem c6_dataraptor_url (s : Session) (base : String) (h : s.loginUrl = some base) :
    (∀ bundleName params, execute_dataraptor_url s bundleName params =
      some (base ++ "/services/apexrest/" ++ s.namespace_ ++ "/v2/DataRaptor/" ++
        bundleName ++ "?" ++ urlencode params)) ∧
    execute_dataraptor_url s "LookupAccounts" [("key1", "value1")] =
      some (base ++ "/services/apexrest/" ++ s.namespace_ ++
        "/v2/DataRaptor/LookupAccounts?key1=value1") := by
  constructor
  · intro bundleName params
    simp [execute_dataraptor_url, h]
  · have henc : urlencode [("key1", "value1")] = "key1=value1" := rfl
    have hlit : ("/v2/DataRaptor/" ++ ("LookupAccounts" ++ ("?" ++ ("key1=value1" : String)))) =
        "/v2/DataRaptor/LookupAccounts?key1=value1" := rfl
    simp only [execute_dataraptor_url, h, henc, String.append_assoc]
    rw [hlit]

/-- C6 (witness): the DataRaptor URL built on `c6Session`. -/
theorem c6_witness :
    execute_dataraptor_url c6Session "LookupAccounts" [("key1", "value1")] =
      some ("https://na1.salesforce.com" ++ "/services/apexrest/" ++ c6Session.namespace_ ++
        "/v2/DataRaptor/LookupAccounts?key1=value1") :=
  (c6_dataraptor_url c6Session "https://na1.salesforce.com" rfl).2

/-! Claim C7. -/

/-- Concrete authenticated session for claim C7. -/
def c7Session : Session := ⟨some "tok", some "https://na1.salesforce.com", "vlocity_cmt"⟩

/-- C7: in `execute_calculation_procedure`, a supplied structured datetime
`effectiveDate` is formatted as `YYYY-MM-DD HH:MM:SS` and stored in the
parameter set under the key `effectiveDate` before the query string is
encoded (so the encoded URL carries that parameter with the formatted
instant); an absent or non-datetime `effectiveDate` leaves the parameter set
untouched. -/
theorem c7_calculation_effective_date (s : Session) (base : String)
    (h : s.loginUrl = some base) :
    (∀ configName d params,
      execute_calculation_procedure_url s configName (EffectiveDateArg.dt d) params =
        some (base ++ "/services/apexrest/" ++ s.namespace_ ++ "/v1/calculate/" ++
          configName ++ "?" ++
          urlencode (setParam params "effectiveDate" (formatEffectiveDate d))) ∧
      (setParam params "effectiveDate" (formatEffectiveDate d)).any
        (fun kv => kv.1 == "effectiveDate" && kv.2 == formatEffectiveDate d) = true) ∧
    (∀ configName params,
      execute_calculation_procedure_url s configName EffectiveDateArg.absent params =
        some (base ++ "/services/apexrest/" ++ s.namespace_ ++ "/v1/calculate/" ++
          configName ++ "?" ++ urlencode params)) ∧
    (∀ configName x params,
      execute_calculation_procedure_url s configName (EffectiveDateArg.nonDatetime x) params =
        some (base ++ "/services/apexrest/" ++ s.namespace_ ++ "/v1/calculate/" ++
          configName ++ "?" ++ urlencode params)) ∧
    formatEffectiveDate ⟨2023, 6, 11, 10, 7, 42⟩ = "2023-06-11 10:07:42" := by
  refine ⟨?_, ?_, ?_, rfl⟩
  · intro configName d params
    exact ⟨by simp [execute_calculation_procedure_url, calcParams, h],
      setParam_contains params "effectiveDate" (formatEffectiveDate d)⟩
  · intro configName params
    simp [execute_calculation_procedure_url, calcParams, h]
  · intro configName x params
    simp [execute_calculation_procedure_url, calcParams, h]

/-- C7 (witness): the datetime case applied to `c7Session` with the instant
2023-06-11 10:07:42 and an empty parameter set. -/
theorem c7_witness :
    execute_calculation_procedure_url c7Session "CalcTax"
        (EffectiveDateArg.dt ⟨2023, 6, 11, 10, 7, 42⟩) [] =
      some ("https://na1.salesforce.com" ++ "/services/apexrest/" ++ c7Session.namespace_ ++
        "/v1/calculate/" ++ "CalcTax" ++ "?" ++
        urlencode (setParam [] "effectiveDate" (formatEffectiveDate ⟨2023, 6, 11, 10, 7, 42⟩))) ∧
    (setParam [] "effectiveDate" (formatEffectiveDate ⟨2023, 6, 11, 10, 7, 42⟩)).any
      (fun kv => kv.1 == "effectiveDate" &&
        kv.2 == formatEffectiveDate ⟨2023, 6, 11, 10, 7, 42⟩) = true :=
  (c7_calculation_effective_date c7Session "https://na1.salesforce.com" rfl).1
    "CalcTax" ⟨2023, 6, 11, 10, 7, 42⟩ []

/-! Claim C8. -/

/-- C8: after a successful `authenticate`, `revoke` clears the token, keeps
the login URL stored by that `authenticate`, and leaves the namespace
untouched; `revoke` is a pure state reset (its embedding takes no request
outcome because the source performs no remote call). -/
theorem c8_revoke_frame (s : Session) (url : String) (kvs : List (String × String))
    (s' : Session) (h : authenticate s url (AuthOutcome.response kvs) = (s', none)) :
    (revoke s').access_token = none ∧
    (revoke s').loginUrl = some (normalizeLoginUrl url) ∧
    (revoke s').namespace_ = s.namespace_ := by
  cases hf : kvs.find? (fun kv => kv.1 == "access_token") with
  | some kv =>
    simp only [authenticate, hf, Prod.mk.injEq] at h
    obtain ⟨hs', -⟩ := h
    subst hs'
    exact ⟨rfl, rfl, rfl⟩
  | none =>
    simp [authenticate, hf] at h

/-- C8 (witness): the frame conditions after authenticating the fresh session
with a response carrying `access_token`. -/
theorem c8_witness :
    (revoke (⟨some "tok123", some "https://na1.salesforce.com", "vlocity_cmt"⟩ : Session)).access_token = none ∧
    (revoke (⟨some "tok123", some "https://na1.salesforce.com", "vlocity_cmt"⟩ : Session)).loginUrl =
      some (normalizeLoginUrl "https://na1.salesforce.com") ∧
    (revoke (⟨some "tok123", some "https://na1.salesforce.com", "vlocity_cmt"⟩ : Session)).namespace_ =
      initSession.namespace_ :=
  c8_revoke_frame initSession "https://na1.salesforce.com" [("access_token", "tok123")]
    ⟨some "tok123", some "https://na1.salesforce.com", "vlocity_cmt"⟩ (by decide)

/-! Claim C9. -/

/-- C9: when none of the four extraction rules produces a match,
`get_record_id` fails with the `No Record Id found` error (the raised
`ValueError`) instead of returning a value. -/
theorem c9_not_found (u : ParsedURL)
    (h1 : classicBranch u = none) (h2 : lightningBranch u = none)
    (h3 : idParamRule u = none) (h4 : fallbackScan u = none) :
    get_record_id u = Except.error "No Record Id found in current window URL." := by
  simp [get_record_id, afterClassic, h1, h2, h3, h4]

/-- Concrete URL for the C9 witness: no rule matches. -/
def c9URL : ParsedURL := ⟨"example.org", "/", [("q", ["hello"])], ""⟩

/-- C9 (witness): the not-found error on `c9URL`. -/
theorem c9_witness :
    get_record_id c9URL = Except.error "No Record Id found in current window URL." :=
  c9_not_found c9URL rfl rfl rfl rfl

/-! Claim C10. -/

/-- Concrete URL for the C10 counterexample: the query value decodes (via
`%0A` in the query string) to 15 alphanumeric characters containing `0000`
followed by one newline, which Python's `$` accepts. -/
def c10nlURL : ParsedURL := ⟨"example.org", "/x", [("k", ["a0000bcdefghijk\n"])], ""⟩

/-- C10 (counterexample): the claim says every string returned by the
fallback branch has length exactly 15 or 18.  On `c10nlURL` the fallback
returns the 16-character value `a0000bcdefghijk\n`: the anchored regex
accepts it because `$` (without `re.MULTILINE`) also matches just before a
trailing newline, and the source returns `p[0]` — the whole value, newline
included. -/
theorem c10_counterexample :
    fallbackScan c10nlURL = some "a0000bcdefghijk\n" ∧
    ("a0000bcdefghijk\n" : String).length = 16 :=
  ⟨rfl, rfl⟩

/-- C10 (amended): every string returned by the fallback branch either has
length exactly 15 or 18, or has length 16 or 19 and ends in a newline (the
15- and 18-character alternatives with the single trailing newline Python's
`$` accepts); the 3-character alternative remains unreachable, with or
without the trailing newline, because such a value cannot contain the
4-character substring `0000`. -/
theorem c10_fallback_length (u : ParsedURL) (r : String)
    (h : fallbackScan u = some r) :
    (r.length = 15 ∨ r.length = 18) ∨
    ((r.length = 16 ∨ r.length = 19) ∧ r.data.getLast? = some '\n') := by
  have hsh : fullShape r.data = true ∧ has0000 r.data = true := by
    unfold fallbackScan at h
    exact findSome?_fallback u.queryParams r h
  obtain ⟨hs, h0⟩ := hsh
  have hlen4 : 4 ≤ r.data.length := has0000_length_ge r.data h0
  have hrl : r.length = r.data.length := rfl
  have hs' : (fullShapeAlt 3 r.data || fullShapeAlt 15 r.data ||
      fullShapeAlt 18 r.data) = true := hs
  rw [Bool.or_eq_true, Bool.or_eq_true] at hs'
  rcases hs' with (h3 | h15) | h18
  · exfalso
    obtain ⟨l, hl, hcs⟩ := fullShapeAlt_shape 3 r.data h3
    rcases hcs with hc | hc
    · rw [hc, hl] at hlen4
      omega
    · obtain ⟨a, b, c, rfl⟩ := List.length_eq_three.mp hl
      rw [hc] at h0
      simp only [List.cons_append, List.nil_append] at h0
      rw [has0000_three_newline] at h0
      exact Bool.noConfusion h0
  · obtain ⟨l, hl, hcs⟩ := fullShapeAlt_shape 15 r.data h15
    rcases hcs with hc | hc
    · exact Or.inl (Or.inl (by rw [hrl, hc, hl]))
    · refine Or.inr ⟨Or.inl ?_, ?_⟩
      · rw [hrl, hc]
        simp [hl]
      · rw [hc]
        exact List.getLast?_concat l
  · obtain ⟨l, hl, hcs⟩ := fullShapeAlt_shape 18 r.data h18
    rcases hcs with hc | hc
    · exact Or.inl (Or.inr (by rw [hrl, hc, hl]))
    · refine Or.inr ⟨Or.inr ?_, ?_⟩
      · rw [hrl, hc]
        simp [hl]
      · rw [hc]
        exact List.getLast?_concat l

/-- Concrete URL for the C10 witness: a query value of 15 alphanumeric
characters containing `0000`, found by the fallback scan. -/
def c10URL : ParsedURL := ⟨"example.org", "/x", [("k", ["a0000bcdefghijk"])], ""⟩

/-- C10 (witness): the amended claim applied to the fallback result on
`c10URL`. -/
theorem c10_witness :
    (("a0000bcdefghijk" : String).length = 15 ∨
      ("a0000bcdefghijk" : String).length = 18) ∨
    ((("a0000bcdefghijk" : String).length = 16 ∨
      ("a0000bcdefghijk" : String).length = 19) ∧
      ("a0000bcdefghijk" : String).data.getLast? = some '\n') :=
  c10_fallback_length c10URL "a0000bcdefghijk" rfl
